import Mathlib

/-
Verification of the matf MAT-file reader (package matf).

This development shallowly embeds the Go source into Lean:

  * matf.go        : readHeader, readDimensions, checkIndex, extractMatrix,
                     ReadDataElement dispatch (byte order selection)
  * datatypes (the revision with the `*[]byte` signatures, which is the one
    the embedded extractMatrix and the test file call):
                     isSmallDataElementFormat, extractTag, extractDataElement,
                     extractNumeric, extractFieldNames, extractArrayName

Modelling conventions:
  * A byte buffer is a `List Nat`; every read applies `% 256` (Go bytes are
    8-bit).  Machine-word reads build the Nat value exactly as
    binary.LittleEndian / binary.BigEndian do.
  * Fallible Go code returns `Except GoErr _`.  Go has two failure channels:
    returned `error` values and runtime panics (out-of-range slice index,
    integer division by zero, reflect kind violations).  Both are modelled as
    `GoErr` values, with `GoErr.isFatal` marking the panics.  At the source
    sites where Go discards a returned error (`_ :=`), the model keeps the
    accompanying zero values only for non-fatal errors and propagates fatal
    ones, exactly mirroring Go (a panic cannot be discarded by `_`).
  * float32 / float64 scalars are represented by their IEEE-754 bit pattern
    (`math.Float32frombits` / `math.Float64frombits` only reinterpret bits,
    no arithmetic is ever performed on the decoded values).
  * The mutual recursion extractMatrix <-> extractDataElement is given a fuel
    parameter; running out of fuel yields the fatal `GoErr.fuelOut`, so every
    `.ok` result corresponds to a real terminating run of the Go code.
-/

namespace matf

/-- binary.ByteOrder: the two byte orders used by the reader. -/
inductive ByteOrder where
  | le
  | be
deriving DecidableEq, Repr

/-- Error kinds of the Go code.  Constructors tagged fatal (see `isFatal`)
model Go runtime panics; the others model returned `error` values. -/
inductive GoErr where
  /-- binary.Read could not fill the destination ("Could not read bytes"). -/
  | shortRead
  /-- Error "Data Type %d is not supported" (extractDataElement default branch). -/
  | unsupportedType (t : Nat)
  /-- Error "This type of class is not supported yet" (extractMatrix default). -/
  | unsupportedClass (c : Nat)
  /-- Error "More dimensions than exptected" (readDimensions, sic). -/
  | tooManyDims
  /-- Go runtime panic: slice index/bounds out of range. -/
  | sliceRange
  /-- Go runtime panic: integer divide by zero. -/
  | divZero
  /-- Go runtime panic: reflect used on a value of the wrong kind. -/
  | reflectKind
  /-- Model artefact: recursion fuel exhausted (treated as fatal so that an
  `.ok` result always corresponds to an actual run of the source). -/
  | fuelOut
deriving DecidableEq, Repr

/-- Which `GoErr`s model Go panics (cannot be swallowed by `_ :=` in Go). -/
def GoErr.isFatal : GoErr → Bool
  | .sliceRange => true
  | .divZero => true
  | .reflectKind => true
  | .fuelOut => true
  | _ => false

/-- At a Go site `v, _ := f(...)` that discards the returned error: keep the
zero values Go hands back for a returned error, propagate a panic. -/
def dropNonfatal {α : Type} (dflt : α) : Except GoErr α → Except GoErr α
  | .ok a => .ok a
  | .error e => if e.isFatal then .error e else .ok dflt

/-- Byte `data[i]` as Go sees it (reads are always of 8-bit bytes). -/
def byteD (data : List Nat) (i : Nat) : Nat :=
  data.getD i 0 % 256

/-- Go slice expression `data[lo:hi]` (panics unless lo ≤ hi ≤ len). -/
def goSlice (data : List Nat) (lo hi : Nat) : Except GoErr (List Nat) :=
  if lo ≤ hi ∧ hi ≤ data.length then .ok ((data.drop lo).take (hi - lo))
  else .error .sliceRange

/-- Go slice expression `data[lo:]` (panics unless lo ≤ len). -/
def goSliceFrom (data : List Nat) (lo : Nat) : Except GoErr (List Nat) :=
  if lo ≤ data.length then .ok (data.drop lo) else .error .sliceRange

/-- Read of `order.Uint16(data[lo:lo+2])` including the Go slice bounds panic. -/
def goUint16 (order : ByteOrder) (data : List Nat) (lo : Nat) :
    Except GoErr Nat :=
  if lo + 2 ≤ data.length then
    match order with
    | .le => .ok (byteD data lo + 256 * byteD data (lo + 1))
    | .be => .ok (256 * byteD data lo + byteD data (lo + 1))
  else .error .sliceRange

/-- Read of `order.Uint32(data[lo:lo+4])` including the Go slice bounds panic. -/
def goUint32 (order : ByteOrder) (data : List Nat) (lo : Nat) :
    Except GoErr Nat :=
  if lo + 4 ≤ data.length then
    match order with
    | .le => .ok (byteD data lo + 256 * byteD data (lo + 1) +
        65536 * byteD data (lo + 2) + 16777216 * byteD data (lo + 3))
    | .be => .ok (16777216 * byteD data lo + 65536 * byteD data (lo + 1) +
        256 * byteD data (lo + 2) + byteD data (lo + 3))
  else .error .sliceRange

/-- Read of `order.Uint64(data[lo:lo+8])` including the Go slice bounds panic. -/
def goUint64 (order : ByteOrder) (data : List Nat) (lo : Nat) :
    Except GoErr Nat :=
  if lo + 8 ≤ data.length then
    match order with
    | .le => .ok (byteD data lo + 256 * byteD data (lo + 1) +
        65536 * byteD data (lo + 2) + 16777216 * byteD data (lo + 3) +
        4294967296 * byteD data (lo + 4) + 1099511627776 * byteD data (lo + 5) +
        281474976710656 * byteD data (lo + 6) +
        72057594037927936 * byteD data (lo + 7))
    | .be => .ok (72057594037927936 * byteD data lo +
        281474976710656 * byteD data (lo + 1) +
        1099511627776 * byteD data (lo + 2) + 4294967296 * byteD data (lo + 3) +
        16777216 * byteD data (lo + 4) + 65536 * byteD data (lo + 5) +
        256 * byteD data (lo + 6) + byteD data (lo + 7))
  else .error .sliceRange

/-- Reinterpret an unsigned w-bit value as the signed w-bit integer Go's
intN conversions produce. -/
def toSigned (w : Nat) (v : Nat) : Int :=
  if v < 2 ^ (w - 1) then (v : Int) else (v : Int) - 2 ^ w

/-- The loop of matf.go lines 136-143, with an explicit iteration bound so
the definition is structurally recursive: increment until the index is a
multiple of 8.  The bound 8 is never exhausted (at most 7 increments are
needed); `checkIndex_spec` below proves the loop's exact result. -/
def checkIndexAux : Nat → Nat → Nat
  | 0, index => index
  | bound + 1, index => if index % 8 = 0 then index else checkIndexAux bound (index + 1)

/-- matf.go lines 136-143: advance `index` to the next multiple of 8 by
repeated increment, exactly as the source loop does. -/
def checkIndex (index : Nat) : Nat :=
  checkIndexAux 8 index

/-- Dimensions (matf.go lines 28-31); Go `int` fields modelled as `Int`. -/
structure Dimensions where
  X : Int
  Y : Int
  Z : Int
deriving DecidableEq, Repr

mutual
/-- MatMatrix (matf.go lines 56-63).  `Name` is the Go string's byte
sequence; `Content` is the `interface{}` field. -/
inductive MatMatrix where
  | mk (Name : List Nat) (Flags : Nat) (Class : Nat) (Dims : Dimensions)
      (Content : GoValue)

/-- A Go `interface{}` value as produced by the decoders: typed scalars
(floats by bit pattern), `[]interface{}` runs, nil, nested matrices, and the
four content struct types NumPrt / CellPrt / StructPrt / CharPrt. -/
inductive GoValue where
  | vInt8 (v : Int)
  | vUint8 (v : Nat)
  | vInt16 (v : Int)
  | vUint16 (v : Nat)
  | vInt32 (v : Int)
  | vUint32 (v : Nat)
  | vFloat32 (bits : Nat)
  | vInt64 (v : Int)
  | vUint64 (v : Nat)
  | vFloat64 (bits : Nat)
  | vList (vs : List GoValue)
  | vNil
  | vMatrix (m : MatMatrix)
  | numPrt (RealPart ImaginaryPart : GoValue)
  | cellPrt (Cells : List MatMatrix)
  | structPrt (FieldNames : List (List Nat)) (FieldValues : List GoValue)
  | charPrt (CharName : List Nat) (CharValues : List GoValue)
end

/-- Field accessor for MatMatrix.Name. -/
def MatMatrix.Name : MatMatrix → List Nat
  | .mk n _ _ _ _ => n

/-- Field accessor for MatMatrix.Flags. -/
def MatMatrix.Flags : MatMatrix → Nat
  | .mk _ f _ _ _ => f

/-- Field accessor for MatMatrix.Class. -/
def MatMatrix.Class : MatMatrix → Nat
  | .mk _ _ c _ _ => c

/-- Field accessor for MatMatrix.Dims (embedded Dimensions). -/
def MatMatrix.Dims : MatMatrix → Dimensions
  | .mk _ _ _ d _ => d

/-- Field accessor for MatMatrix.Content. -/
def MatMatrix.Content : MatMatrix → GoValue
  | .mk _ _ _ _ c => c

/-- datatypes lines 148-165 (the `*[]byte` revision): probe two bytes at
offset 2 (little-endian) or 0 (big-endian); the tag is in small data element
format when they differ.  `bytes.NewReader((*data)[offset:])` panics when
offset exceeds the length; `binary.Read` of 2 bytes fails when fewer remain. -/
def isSmallDataElementFormat (data : List Nat) (order : ByteOrder) :
    Except GoErr Bool :=
  let offset : Nat := match order with | .le => 2 | .be => 0
  if data.length < offset then .error .sliceRange
  else if data.length < offset + 2 then .error .shortRead
  else .ok (decide (byteD data offset ≠ byteD data (offset + 1)))

/-- datatypes lines 167-186: decode a tag into
(dataType, numberOfBytes, headerBytesConsumed). -/
def extractTag (data : List Nat) (order : ByteOrder) :
    Except GoErr (Nat × Nat × Nat) :=
  match isSmallDataElementFormat data order with
  | .error e => .error e
  | .ok true =>
    match goUint16 order data 0 with
    | .error e => .error e
    | .ok dataType =>
      match goUint16 order data 2 with
      | .error e => .error e
      | .ok numberOfBytes => .ok (dataType, numberOfBytes, 4)
  | .ok false =>
    match goUint32 order data 0 with
    | .error e => .error e
    | .ok dataType =>
      match goUint32 order data 4 with
      | .error e => .error e
      | .ok numberOfBytes => .ok (dataType, numberOfBytes, 8)

/-- datatypes lines 132-146: read a tag, then `numberOfBytes` name bytes
(empty name when the byte count is zero); returns the name bytes and the
cursor step.  On error Go hands back ("", 0). -/
def extractArrayName (data : List Nat) (order : ByteOrder) :
    Except GoErr (List Nat × Nat) :=
  match extractTag data order with
  | .error e => .error e
  | .ok (_, numberOfBytes, offset) =>
    if numberOfBytes = 0 then .ok ([], offset)
    else
      match goSliceFrom data offset with
      | .error e => .error e
      | .ok rest =>
        if rest.length < numberOfBytes then .error .shortRead
        else .ok ((rest.take numberOfBytes).map (· % 256),
            offset + numberOfBytes)

/-- datatypes lines 121-130: slice `numberOfFields` names of
`fieldNameLength` bytes each out of the buffer, in order. -/
def extractFieldNamesAux (data : List Nat) (fieldNameLength : Nat) :
    Nat → Nat → Except GoErr (List (List Nat))
  | 0, _ => .ok []
  | numberOfFields + 1, index =>
    match goSlice data index (index + fieldNameLength) with
    | .error e => .error e
    | .ok s =>
      match extractFieldNamesAux data fieldNameLength numberOfFields
          (index + fieldNameLength) with
      | .error e => .error e
      | .ok rest => .ok (s.map (· % 256) :: rest)

/-- datatypes lines 121-130: extractFieldNames entry point (index starts 0). -/
def extractFieldNames (data : List Nat) (fieldNameLength numberOfFields : Nat) :
    Except GoErr (List (List Nat)) :=
  extractFieldNamesAux data fieldNameLength numberOfFields 0

/-- Bytes one scalar of the given MAT data type occupies in
extractDataElement's loop; `none` for the unsupported types of its default
branch (including miUtf8/16/32 = 16/17/18, which are never decoded). -/
def scalarWidth : Nat → Option Nat
  | 1 => some 1
  | 2 => some 1
  | 3 => some 2
  | 4 => some 2
  | 5 => some 4
  | 6 => some 4
  | 7 => some 4
  | 9 => some 8
  | 12 => some 8
  | 13 => some 8
  | _ => none

/-- One iteration body of extractDataElement's scalar switch (datatypes lines
68-99): read one scalar of `dataType` at byte offset `i`. -/
def decodeScalar (order : ByteOrder) (data : List Nat) (dataType i : Nat) :
    Except GoErr GoValue :=
  match dataType with
  | 1 =>
    if i < data.length then .ok (.vInt8 (toSigned 8 (byteD data i)))
    else .error .sliceRange
  | 2 =>
    if i < data.length then .ok (.vUint8 (byteD data i))
    else .error .sliceRange
  | 3 =>
    match goUint16 order data i with
    | .error e => .error e
    | .ok v => .ok (.vInt16 (toSigned 16 v))
  | 4 =>
    match goUint16 order data i with
    | .error e => .error e
    | .ok v => .ok (.vUint16 v)
  | 5 =>
    match goUint32 order data i with
    | .error e => .error e
    | .ok v => .ok (.vInt32 (toSigned 32 v))
  | 6 =>
    match goUint32 order data i with
    | .error e => .error e
    | .ok v => .ok (.vUint32 v)
  | 7 =>
    match goUint32 order data i with
    | .error e => .error e
    | .ok v => .ok (.vFloat32 v)
  | 9 =>
    match goUint64 order data i with
    | .error e => .error e
    | .ok v => .ok (.vFloat64 v)
  | 12 =>
    match goUint64 order data i with
    | .error e => .error e
    | .ok v => .ok (.vInt64 (toSigned 64 v))
  | 13 =>
    match goUint64 order data i with
    | .error e => .error e
    | .ok v => .ok (.vUint64 v)
  | t => .error (.unsupportedType t)

/-- datatypes lines 58-105 for the non-matrix data types: the
`for i < numberOfBytes` loop appending one decoded scalar per step.  The
first argument is an iteration bound making the recursion structural; every
step advances `i` by at least 1, so a bound of `numberOfBytes` (what
`extractDataElement` passes) is never exhausted. -/
def scalarLoop (order : ByteOrder) (data : List Nat) (dataType : Nat) :
    Nat → Nat → Nat → List GoValue → Except GoErr (List GoValue × Nat)
  | bound, numberOfBytes, i, acc =>
    if i < numberOfBytes then
      match bound with
      | 0 => .error .fuelOut
      | bound + 1 =>
        match scalarWidth dataType with
        | none => .error (.unsupportedType dataType)
        | some w =>
          match decodeScalar order data dataType i with
          | .error e => .error e
          | .ok v => scalarLoop order data dataType bound numberOfBytes
              (i + w) (acc ++ [v])
    else .ok (acc, i)

/-- reflect.ValueOf(v).Int() — only defined on signed integer kinds, a
panic on anything else (readDimensions applies it to each element). -/
def valueToInt : GoValue → Except GoErr Int
  | .vInt8 v => .ok v
  | .vInt16 v => .ok v
  | .vInt32 v => .ok v
  | .vInt64 v => .ok v
  | _ => .error .reflectKind

/-- matf.go lines 101-113 loop: copy up to three decoded axis values into
the X/Y/Z slots, failing on a fourth. -/
def readDimensionsAux : List GoValue → Nat → Dimensions →
    Except GoErr Dimensions
  | [], _, d => .ok d
  | v :: rest, i, d =>
    match valueToInt v with
    | .error e => .error e
    | .ok value =>
      match i with
      | 0 => readDimensionsAux rest 1 ⟨value, d.Y, d.Z⟩
      | 1 => readDimensionsAux rest 2 ⟨d.X, value, d.Z⟩
      | 2 => readDimensionsAux rest 3 ⟨d.X, d.Y, value⟩
      | _ => .error .tooManyDims

/-- matf.go lines 97-115: readDimensions over the reflected element list
(`t.Len()` panics unless the dynamic value is a slice). -/
def readDimensions : GoValue → Except GoErr Dimensions
  | .vList vs => readDimensionsAux vs 0 ⟨0, 0, 0⟩
  | _ => .error .reflectKind

/-- matf.go lines 217-228 (struct class, before the value loop): read the
fieldNameLength word at preamble bytes 4..7 and the byte-count word at
12..15, divide (Go panics on a zero divisor), slice and split the field
names, and realign.  Returns (fieldNames, numberOfFields, new index).  The
slice bound `fieldNameLength*numberOfFields` is uint32 arithmetic. -/
def structPrelude (data : List Nat) (order : ByteOrder) (index : Nat) :
    Except GoErr (List (List Nat) × Nat × Nat) :=
  match goUint32 order data (index + 4) with
  | .error e => .error e
  | .ok fieldNameLength =>
    match goUint32 order data (index + 12) with
    | .error e => .error e
    | .ok fieldsByteCount =>
      if fieldNameLength = 0 then .error .divZero
      else
        match goSlice data (checkIndex (index + 16))
            (checkIndex (index + 16) +
              fieldNameLength * (fieldsByteCount / fieldNameLength) %
                4294967296) with
        | .error e => .error e
        | .ok tmp =>
          match extractFieldNames tmp fieldNameLength
              (fieldsByteCount / fieldNameLength) with
          | .error e => .error e
          | .ok fieldNames =>
            .ok (fieldNames, fieldsByteCount / fieldNameLength,
              checkIndex (checkIndex (index + 16) +
                fieldsByteCount / fieldNameLength * fieldNameLength))

/-- matf.go lines 246-254 (char class, before the value loop): re-read the
tag at `index` (its error is discarded with `_`), then run extractArrayName
over `data[index : index+offset+numberOfBytes]` (this error is checked);
returns the char name and the realigned index. -/
def charPrelude (data : List Nat) (order : ByteOrder) (index : Nat) :
    Except GoErr (List Nat × Nat) :=
  match goSlice data index (index + 8) with
  | .error e => .error e
  | .ok tmp =>
    match dropNonfatal (0, 0, 0) (extractTag tmp order) with
    | .error e => .error e
    | .ok (_, numberOfBytes, offset) =>
      match goSlice data index (index + offset + numberOfBytes) with
      | .error e => .error e
      | .ok tmp2 =>
        match extractArrayName tmp2 order with
        | .error e => .error e
        | .ok (name, _) =>
          .ok (name, checkIndex (index + offset + numberOfBytes))

/-- Header (matf.go lines 65-71): description text, subsystem data offset,
version and endian indicator (both 16-bit words read big-endian). -/
structure Header where
  Text : List Nat
  subsystemDataOffset : List Nat
  Version : Nat
  endianIndicator : Nat
deriving DecidableEq, Repr

/-- matf.go lines 73-95: readHeader.  Consumes the first 128 bytes (error
when fewer are available), splits the header fields, and sets byteSwapping
(the returned Bool) exactly when the endian indicator equals
binary.BigEndian.Uint16([0x49, 0x4d]) = 18765, i.e. the bytes "IM". -/
def readHeader (data : List Nat) : Except GoErr (Header × Bool) :=
  if data.length < 128 then .error .shortRead
  else
    .ok ({ Text := (data.take 116).map (· % 256),
           subsystemDataOffset := ((data.drop 116).take 8).map (· % 256),
           Version := 256 * byteD data 124 + byteD data 125,
           endianIndicator := 256 * byteD data 126 + byteD data 127 },
         decide (256 * byteD data 126 + byteD data 127 = 18765))

/-- matf.go lines 406-412: ReadDataElement decodes with binary.LittleEndian
when byteSwapping is set and binary.BigEndian otherwise. -/
def readOrder (byteSwapping : Bool) : ByteOrder :=
  if byteSwapping then .le else .be

mutual

/-- matf.go lines 156-196: the part of extractMatrix before the class
dispatch.  Decodes Array Flags (always read little-endian, line 166), the
Dimensions Array (readDimensions' returned error is discarded, line 189)
and the Array Name (its returned error is discarded, line 194).  Returns
(flags, dims, name, index after the name, realigned). -/
def matrixPreamble : Nat → List Nat → ByteOrder →
    Except GoErr (Nat × Dimensions × List Nat × Nat)
  | 0, _, _ => .error .fuelOut
  | fuel + 1, data, order =>
    match extractTag data order with
    | .error e => .error e
    | .ok (_, nb1, off1) =>
      match goSlice data off1 (off1 + nb1) with
      | .error e => .error e
      | .ok arrayFlags =>
        match goUint32 .le arrayFlags 0 with
        | .error e => .error e
        | .ok flags =>
          match goSlice data (checkIndex (off1 + nb1))
              (checkIndex (off1 + nb1) + 8) with
          | .error e => .error e
          | .ok tmp1 =>
            match extractTag tmp1 order with
            | .error e => .error e
            | .ok (dt2, nb2, off2) =>
              match goSlice data (checkIndex (off1 + nb1) + off2)
                  (checkIndex (off1 + nb1) + off2 + nb2) with
              | .error e => .error e
              | .ok dimArray =>
                match extractDataElement fuel dimArray order dt2 nb2 with
                | .error e => .error e
                | .ok (dimsV, _) =>
                  match dropNonfatal ⟨0, 0, 0⟩ (readDimensions dimsV) with
                  | .error e => .error e
                  | .ok dims =>
                    match goSliceFrom data
                        (checkIndex (checkIndex (off1 + nb1) + off2 + nb2)) with
                    | .error e => .error e
                    | .ok tmp2 =>
                      match dropNonfatal ([], 0)
                          (extractArrayName tmp2 order) with
                      | .error e => .error e
                      | .ok (arrayName, step) =>
                        .ok (flags, dims, arrayName,
                          checkIndex
                            (checkIndex (checkIndex (off1 + nb1) + off2 + nb2) +
                              step))
termination_by structural fuel data order => fuel

/-- matf.go lines 145-309: extractMatrix.  Runs the preamble (Array Flags,
Dimensions Array, Array Name), then dispatches on the class nibble
`flags & 0x0F` to the class-body decoders of lines 198-307.  Returns the
matrix and the final index. -/
def extractMatrix : Nat → List Nat → ByteOrder →
    Except GoErr (MatMatrix × Nat)
  | 0, _, _ => .error .fuelOut
  | fuel + 1, data, order =>
    match matrixPreamble fuel data order with
    | .error e => .error e
    | .ok (flags, dims, arrayName, index3) =>
      match flags % 16 with
      | 1 =>
        match cellLoop fuel data order data.length index3 [] with
        | .error e => .error e
        | .ok (cells, idxF) =>
          .ok (.mk arrayName flags (flags % 16) dims (.cellPrt cells), idxF)
      | 2 =>
        match structPrelude data order index3 with
        | .error e => .error e
        | .ok (fieldNames, nof, index5) =>
          match structValuesLoop fuel data order nof index5 [] with
          | .error e => .error e
          | .ok (elements, idxF) =>
            .ok (.mk arrayName flags (flags % 16) dims
              (.structPrt fieldNames elements), idxF)
      | 4 =>
        match charPrelude data order index3 with
        | .error e => .error e
        | .ok (cname, index6) =>
          match charLoop fuel data order data.length 0 index6 [] with
          | .error e => .error e
          | .ok (cvals, idxF) =>
            .ok (.mk arrayName flags (flags % 16) dims (.charPrt cname cvals), idxF)
      | 6 =>
        match numericBody fuel data order (flags.testBit 11) index3 with
        | .error e => .error e
        | .ok (content, idxF) =>
          .ok (.mk arrayName flags (flags % 16) dims content, idxF)
      | 7 =>
        match numericBody fuel data order (flags.testBit 11) index3 with
        | .error e => .error e
        | .ok (content, idxF) =>
          .ok (.mk arrayName flags (flags % 16) dims content, idxF)
      | 8 =>
        match numericBody fuel data order (flags.testBit 11) index3 with
        | .error e => .error e
        | .ok (content, idxF) =>
          .ok (.mk arrayName flags (flags % 16) dims content, idxF)
      | 9 =>
        match numericBody fuel data order (flags.testBit 11) index3 with
        | .error e => .error e
        | .ok (content, idxF) =>
          .ok (.mk arrayName flags (flags % 16) dims content, idxF)
      | 10 =>
        match numericBody fuel data order (flags.testBit 11) index3 with
        | .error e => .error e
        | .ok (content, idxF) =>
          .ok (.mk arrayName flags (flags % 16) dims content, idxF)
      | 11 =>
        match numericBody fuel data order (flags.testBit 11) index3 with
        | .error e => .error e
        | .ok (content, idxF) =>
          .ok (.mk arrayName flags (flags % 16) dims content, idxF)
      | 12 =>
        match numericBody fuel data order (flags.testBit 11) index3 with
        | .error e => .error e
        | .ok (content, idxF) =>
          .ok (.mk arrayName flags (flags % 16) dims content, idxF)
      | 13 =>
        match numericBody fuel data order (flags.testBit 11) index3 with
        | .error e => .error e
        | .ok (content, idxF) =>
          .ok (.mk arrayName flags (flags % 16) dims content, idxF)
      | c => .error (.unsupportedClass c)
termination_by structural fuel data order => fuel

/-- datatypes lines 50-106: extractDataElement.  Empty payload returns an
empty run; MiMatrix (14) recurses into extractMatrix on the whole buffer;
every other type runs the scalar loop. -/
def extractDataElement : Nat → List Nat → ByteOrder → Nat → Nat →
    Except GoErr (GoValue × Nat)
  | 0, _, _, _, _ => .error .fuelOut
  | fuel + 1, data, order, dataType, numberOfBytes =>
    if numberOfBytes = 0 then .ok (.vList [], 0)
    else if dataType = 14 then
      match extractMatrix fuel data order with
      | .error e => .error e
      | .ok (m, step) => .ok (.vMatrix m, step)
    else
      match scalarLoop order data dataType numberOfBytes numberOfBytes 0 [] with
      | .error e => .error e
      | .ok (vs, i) => .ok (.vList vs, i)
termination_by structural fuel data order dataType numberOfBytes => fuel

/-- datatypes lines 108-119: extractNumeric — one tag, then the scalar run
it announces; the step is tag offset plus byte count. -/
def extractNumeric : Nat → List Nat → ByteOrder →
    Except GoErr (GoValue × Nat)
  | 0, _, _ => .error .fuelOut
  | fuel + 1, data, order =>
    match extractTag data order with
    | .error e => .error e
    | .ok (dataType, numberOfBytes, offset) =>
      match goSliceFrom data offset with
      | .error e => .error e
      | .ok tmp =>
        match extractDataElement fuel tmp order dataType numberOfBytes with
        | .error e => .error e
        | .ok (re, _) => .ok (re, offset + numberOfBytes)
termination_by structural fuel data order => fuel

/-- matf.go lines 201-212 (cell class): until the index reaches the end of
the buffer, skip 8 bytes and recurse into extractMatrix, appending each
child in document order. -/
def cellLoop : Nat → List Nat → ByteOrder → Nat → Nat → List MatMatrix →
    Except GoErr (List MatMatrix × Nat)
  | 0, _, _, _, _, _ => .error .fuelOut
  | fuel + 1, data, order, maxLen, index, acc =>
    if maxLen ≤ index then .ok (acc, index)
    else
      match goSliceFrom data (index + 8) with
      | .error e => .error e
      | .ok tmp =>
        match extractMatrix fuel tmp order with
        | .error e => .error e
        | .ok (element, step) =>
          cellLoop fuel data order maxLen (checkIndex (index + 8 + step))
            (acc ++ [element])
termination_by structural fuel data order maxLen index acc => fuel

/-- matf.go lines 230-241 (struct class): read exactly `numberOfFields`
tagged sub-elements, appending each decoded value; the tag decode's error
is discarded with `_` (zero values are used in that case). -/
def structValuesLoop : Nat → List Nat → ByteOrder → Nat → Nat →
    List GoValue → Except GoErr (List GoValue × Nat)
  | 0, _, _, _, _, _ => .error .fuelOut
  | fuel + 1, data, order, numberOfFields, index, acc =>
    match numberOfFields with
    | 0 => .ok (acc, index)
    | nof + 1 =>
      match goSlice data index (index + 8) with
      | .error e => .error e
      | .ok tmp =>
        match dropNonfatal (0, 0, 0) (extractTag tmp order) with
        | .error e => .error e
        | .ok (dataType, numberOfBytes, offset) =>
          match goSlice data (index + offset)
              (index + offset + numberOfBytes) with
          | .error e => .error e
          | .ok tmp2 =>
            match extractDataElement fuel tmp2 order dataType
                numberOfBytes with
            | .error e => .error e
            | .ok (element, _) =>
              structValuesLoop fuel data order nof
                (checkIndex (index + offset + numberOfBytes))
                (acc ++ [element])
termination_by structural fuel data order numberOfFields index acc => fuel

/-- matf.go lines 255-273 (char class): up to three tagged sub-elements or
until the end of the buffer; the tag decode's error is discarded with `_`. -/
def charLoop : Nat → List Nat → ByteOrder → Nat → Nat → Nat →
    List GoValue → Except GoErr (List GoValue × Nat)
  | 0, _, _, _, _, _, _ => .error .fuelOut
  | fuel + 1, data, order, maxLen, counter, index, acc =>
    if maxLen ≤ index then .ok (acc, index)
    else if 3 < counter + 1 then .ok (acc, index)
    else
      match goSlice data index (index + 8) with
      | .error e => .error e
      | .ok tmp =>
        match dropNonfatal (0, 0, 0) (extractTag tmp order) with
        | .error e => .error e
        | .ok (dataType, numberOfBytes, offset) =>
          match goSlice data (index + offset)
              (index + offset + numberOfBytes) with
          | .error e => .error e
          | .ok tmp2 =>
            match extractDataElement fuel tmp2 order dataType
                numberOfBytes with
            | .error e => .error e
            | .ok (element, _) =>
              charLoop fuel data order maxLen (counter + 1)
                (checkIndex (index + offset + numberOfBytes))
                (acc ++ [element])
termination_by structural fuel data order maxLen counter index acc => fuel

/-- matf.go lines 290-304 (numeric classes): the real part via
extractNumeric (error discarded with `_`), realign, and when the complex
flag (bit 11) is set an imaginary part the same way. -/
def numericBody : Nat → List Nat → ByteOrder → Bool → Nat →
    Except GoErr (GoValue × Nat)
  | 0, _, _, _, _ => .error .fuelOut
  | fuel + 1, data, order, complexNumber, index =>
    match goSliceFrom data index with
    | .error e => .error e
    | .ok tmp =>
      match dropNonfatal (.vNil, 0) (extractNumeric fuel tmp order) with
      | .error e => .error e
      | .ok (re, used) =>
        if complexNumber then
          match goSliceFrom data (checkIndex (index + used)) with
          | .error e => .error e
          | .ok tmpI =>
            match dropNonfatal (.vNil, 0) (extractNumeric fuel tmpI order) with
            | .error e => .error e
            | .ok (im, used2) =>
              .ok (.numPrt re im, checkIndex (checkIndex (index + used) + used2))
        else .ok (.numPrt re .vNil, checkIndex (index + used))
termination_by structural fuel data order complexNumber index => fuel

end

/-
Concrete inputs.
-/

/-- The 128-byte matrix body of the repository test fixture
(datatypes_test.go lines 12-14): a little-endian 3x3 double matrix named
"MaTrIx" with real part [1,0,1,0,1,0,1,0,1]. -/
def verySimpleMatrix : List Nat :=
  [6, 0, 0, 0, 8, 0, 0, 0, 6, 0, 0, 0, 1, 0, 0, 0, 5, 0, 0, 0, 8, 0, 0,
   0, 3, 0, 0, 0, 3, 0, 0, 0, 1, 0, 0, 0, 6, 0, 0, 0, 77, 97, 84, 114,
   73, 120, 0, 0, 9, 0, 0, 0, 72, 0, 0, 0, 0, 0, 0, 0, 0, 0, 240, 63, 0,
   0, 0, 0, 0, 0, 0, 0, 0, 0, 0, 0, 0, 0, 240, 63, 0, 0, 0, 0, 0, 0, 0,
   0, 0, 0, 0, 0, 0, 0, 240, 63, 0, 0, 0, 0, 0, 0, 0, 0, 0, 0, 0, 0, 0,
   0, 240, 63, 0, 0, 0, 0, 0, 0, 0, 0, 0, 0, 0, 0, 0, 0, 240, 63]

/-- The byte name "MaTrIx" (ASCII). -/
def maTrIxName : List Nat := [77, 97, 84, 114, 73, 120]

/-- IEEE-754 binary64 bit pattern of 1.0. -/
def oneBits : Nat := 4607182418800017408

/-- A little-endian small tag carrying dataType 6 and byteCount 257
(bytes 06 00 01 01), followed by four payload bytes: the two bytes of the
byteCount halfword are equal, so the small-tag probe `data[2] != data[3]`
misses it. -/
def smallTag257 : List Nat := [6, 0, 1, 1, 0, 0, 0, 0]

/-- A little-endian cell-class matrix body whose Dimensions Array says
(1, 5) but whose buffer contains a single child matrix (one 8-byte filler
plus one 56-byte 1x1 double child); 104 bytes total. -/
def cellShortBody : List Nat :=
  [6, 0, 0, 0, 8, 0, 0, 0, 1, 0, 0, 0, 0, 0, 0, 0,
   5, 0, 0, 0, 8, 0, 0, 0, 1, 0, 0, 0, 5, 0, 0, 0,
   1, 0, 0, 0, 0, 0, 0, 0, 0, 0, 0, 0, 0, 0, 0, 0,
   6, 0, 0, 0, 8, 0, 0, 0, 6, 0, 0, 0, 0, 0, 0, 0,
   5, 0, 0, 0, 8, 0, 0, 0, 1, 0, 0, 0, 1, 0, 0, 0,
   1, 0, 0, 0, 0, 0, 0, 0, 9, 0, 0, 0, 8, 0, 0, 0,
   0, 0, 0, 0, 0, 0, 240, 63]

/-- The single 1x1 double child contained in `cellShortBody`. -/
def cellChild : MatMatrix :=
  .mk [] 6 6 ⟨1, 1, 0⟩ (.numPrt (.vList [.vFloat64 oneBits]) .vNil)

/-- A little-endian struct-class matrix body with dims (1, 2), one field
named "abc\0" (fieldNameLength 4), and a single tagged double value;
80 bytes total. -/
def structOneField : List Nat :=
  [6, 0, 0, 0, 8, 0, 0, 0, 2, 0, 0, 0, 0, 0, 0, 0,
   5, 0, 0, 0, 8, 0, 0, 0, 1, 0, 0, 0, 2, 0, 0, 0,
   1, 0, 0, 0, 0, 0, 0, 0, 0, 0, 0, 0, 4, 0, 0, 0,
   0, 0, 0, 0, 4, 0, 0, 0, 97, 98, 99, 0, 0, 0, 0, 0,
   9, 0, 0, 0, 8, 0, 0, 0, 0, 0, 0, 0, 0, 0, 240, 63]

/-- A little-endian double-class matrix body whose Dimensions Array payload
has four signed-32-bit axes (1,1,1,1), then an empty name and one tagged
double value; 64 bytes total. -/
def fourAxesBody : List Nat :=
  [6, 0, 0, 0, 8, 0, 0, 0, 6, 0, 0, 0, 0, 0, 0, 0,
   5, 0, 0, 0, 16, 0, 0, 0, 1, 0, 0, 0, 1, 0, 0, 0,
   1, 0, 0, 0, 1, 0, 0, 0, 1, 0, 0, 0, 0, 0, 0, 0,
   9, 0, 0, 0, 8, 0, 0, 0, 0, 0, 0, 0, 0, 0, 240, 63]

/-- A 128-byte header whose endian-indicator bytes 126..127 are "IM". -/
def leHeaderBytes : List Nat := List.replicate 126 0 ++ [73, 77]

/-- Little-endian on-wire encoding of a 16-bit value (input encoder used
to quantify over tags). -/
def u16leBytes (v : Nat) : List Nat :=
  [v % 256, v / 256 % 256]

/-- On-wire encoding of a 32-bit value in the given byte order (input
encoder used to quantify over tags). -/
def u32Bytes : ByteOrder → Nat → List Nat
  | .le, v => [v % 256, v / 256 % 256, v / 65536 % 256, v / 16777216 % 256]
  | .be, v => [v / 16777216 % 256, v / 65536 % 256, v / 256 % 256, v % 256]

/-- The matrix value decoded from `cellShortBody`. -/
def cellShortMatrix : MatMatrix :=
  .mk [] 1 1 ⟨1, 5, 0⟩ (.cellPrt [cellChild])

/-- The matrix value decoded from `structOneField`. -/
def structOneFieldMatrix : MatMatrix :=
  .mk [] 2 2 ⟨1, 2, 0⟩ (.structPrt [[97, 98, 99, 0]]
    [.vList [.vFloat64 oneBits]])

/-- The matrix value decoded from `fourAxesBody` (note the zeroed-out
dimension triple after the discarded readDimensions error). -/
def fourAxesMatrix : MatMatrix :=
  .mk [] 6 6 ⟨0, 0, 0⟩ (.numPrt (.vList [.vFloat64 oneBits]) .vNil)

/-- The matrix value decoded from `verySimpleMatrix`. -/
def verySimpleMatrixValue : MatMatrix :=
  .mk maTrIxName 6 6 ⟨3, 3, 0⟩
    (.numPrt (.vList [.vFloat64 oneBits, .vFloat64 0, .vFloat64 oneBits,
      .vFloat64 0, .vFloat64 oneBits, .vFloat64 0, .vFloat64 oneBits,
      .vFloat64 0, .vFloat64 oneBits]) .vNil)

/-- Number of child matrices in a cell content value. -/
def cellCount : GoValue → Nat
  | .cellPrt cells => cells.length
  | _ => 0

/-- Number of decoded field values in a struct content value. -/
def structValueCount : GoValue → Nat
  | .structPrt _ vs => vs.length
  | _ => 0

/-
Helper lemmas.
-/

theorem checkIndexAux_spec (bound index : Nat)
    (h : (8 - index % 8) % 8 ≤ bound) :
    checkIndexAux bound index = index + (8 - index % 8) % 8 := by
  induction bound generalizing index with
  | zero =>
    simp only [checkIndexAux]
    omega
  | succ b ih =>
    simp only [checkIndexAux]
    by_cases h8 : index % 8 = 0
    · simp [h8]
    · simp only [h8, if_false]
      rw [ih (index + 1) (by omega)]
      omega

/-- The checkIndex loop computes the least multiple of 8 that is ≥ index. -/
theorem checkIndex_spec (index : Nat) :
    checkIndex index = index + (8 - index % 8) % 8 :=
  checkIndexAux_spec 8 index (by omega)

theorem checkIndex_mod (index : Nat) : checkIndex index % 8 = 0 := by
  rw [checkIndex_spec]; omega

theorem checkIndex_le (index : Nat) : index ≤ checkIndex index := by
  rw [checkIndex_spec]; omega

theorem cellLoop_ok (fuel : Nat) :
    ∀ data order maxLen index acc cs i,
      cellLoop fuel data order maxLen index acc = .ok (cs, i) →
      maxLen ≤ i ∧ (index % 8 = 0 → i % 8 = 0) := by
  induction fuel with
  | zero =>
    intro data order maxLen index acc cs i h
    simp [cellLoop] at h
  | succ f ih =>
    intro data order maxLen index acc cs i h
    rw [cellLoop] at h
    split at h
    · simp only [Except.ok.injEq, Prod.mk.injEq] at h
      obtain ⟨-, rfl⟩ := h
      exact ⟨by omega, fun hm => hm⟩
    · split at h
      · exact Except.noConfusion h
      · split at h
        · exact Except.noConfusion h
        · have := ih _ _ _ _ _ _ _ h
          exact ⟨this.1, fun _ => this.2 (checkIndex_mod _)⟩

theorem structValuesLoop_ok (fuel : Nat) :
    ∀ data order n index acc vs i,
      structValuesLoop fuel data order n index acc = .ok (vs, i) →
      vs.length = acc.length + n ∧ (index % 8 = 0 → i % 8 = 0) := by
  induction fuel with
  | zero =>
    intro data order n index acc vs i h
    simp [structValuesLoop] at h
  | succ f ih =>
    intro data order n index acc vs i h
    cases n with
    | zero =>
      rw [structValuesLoop] at h
      simp only [Except.ok.injEq, Prod.mk.injEq] at h
      obtain ⟨rfl, rfl⟩ := h
      exact ⟨by omega, fun hm => hm⟩
    | succ nof =>
      rw [structValuesLoop] at h
      split at h
      · exact Except.noConfusion h
      · split at h
        · exact Except.noConfusion h
        · split at h
          · exact Except.noConfusion h
          · split at h
            · exact Except.noConfusion h
            · have := ih _ _ _ _ _ _ _ h
              refine ⟨?_, fun _ => this.2 (checkIndex_mod _)⟩
              have h1 := this.1
              simp only [List.length_append, List.length_cons,
                List.length_nil] at h1 ⊢
              omega

theorem charLoop_ok (fuel : Nat) :
    ∀ data order maxLen counter index acc vs i,
      charLoop fuel data order maxLen counter index acc = .ok (vs, i) →
      index % 8 = 0 → i % 8 = 0 := by
  induction fuel with
  | zero =>
    intro data order maxLen counter index acc vs i h
    simp [charLoop] at h
  | succ f ih =>
    intro data order maxLen counter index acc vs i h hm
    rw [charLoop] at h
    split at h
    · simp only [Except.ok.injEq, Prod.mk.injEq] at h
      obtain ⟨-, rfl⟩ := h
      exact hm
    · split at h
      · simp only [Except.ok.injEq, Prod.mk.injEq] at h
        obtain ⟨-, rfl⟩ := h
        exact hm
      · split at h
        · exact Except.noConfusion h
        · split at h
          · exact Except.noConfusion h
          · split at h
            · exact Except.noConfusion h
            · split at h
              · exact Except.noConfusion h
              · exact ih _ _ _ _ _ _ _ _ h (checkIndex_mod _)

theorem numericBody_ok (fuel : Nat) :
    ∀ data order complexNumber index content i,
      numericBody fuel data order complexNumber index = .ok (content, i) →
      i % 8 = 0 := by
  intro data order complexNumber index content i h
  match fuel with
  | 0 => simp [numericBody] at h
  | f + 1 =>
    rw [numericBody] at h
    split at h
    · exact Except.noConfusion h
    · split at h
      · exact Except.noConfusion h
      · split at h
        · split at h
          · exact Except.noConfusion h
          · split at h
            · exact Except.noConfusion h
            · simp only [Except.ok.injEq, Prod.mk.injEq] at h
              obtain ⟨-, rfl⟩ := h
              exact checkIndex_mod _
        · simp only [Except.ok.injEq, Prod.mk.injEq] at h
          obtain ⟨-, rfl⟩ := h
          exact checkIndex_mod _

theorem extractFieldNamesAux_len :
    ∀ n data fnl index names,
      extractFieldNamesAux data fnl n index = .ok names →
      names.length = n := by
  intro n
  induction n with
  | zero =>
    intro data fnl index names h
    simp only [extractFieldNamesAux, Except.ok.injEq] at h
    simp [← h]
  | succ k ih =>
    intro data fnl index names h
    rw [extractFieldNamesAux] at h
    split at h
    · exact Except.noConfusion h
    · split at h
      · exact Except.noConfusion h
      · simp only [Except.ok.injEq] at h
        subst h
        simp only [List.length_cons]
        rw [ih _ _ _ _ (by assumption)]

theorem structPrelude_ok :
    ∀ data order index names nof idx,
      structPrelude data order index = .ok (names, nof, idx) →
      names.length = nof ∧ idx % 8 = 0 := by
  intro data order index names nof idx h
  rw [structPrelude] at h
  split at h
  · exact Except.noConfusion h
  · split at h
    · exact Except.noConfusion h
    · split at h
      · exact Except.noConfusion h
      · split at h
        · exact Except.noConfusion h
        · split at h
          · exact Except.noConfusion h
          · simp only [Except.ok.injEq, Prod.mk.injEq] at h
            obtain ⟨rfl, rfl, rfl⟩ := h
            exact ⟨extractFieldNamesAux_len _ _ _ _ _ (by assumption),
              checkIndex_mod _⟩

theorem charPrelude_ok :
    ∀ data order index name idx,
      charPrelude data order index = .ok (name, idx) → idx % 8 = 0 := by
  intro data order index name idx h
  rw [charPrelude] at h
  split at h
  · exact Except.noConfusion h
  · split at h
    · exact Except.noConfusion h
    · split at h
      · exact Except.noConfusion h
      · split at h
        · exact Except.noConfusion h
        · simp only [Except.ok.injEq, Prod.mk.injEq] at h
          obtain ⟨-, rfl⟩ := h
          exact checkIndex_mod _

theorem matrixPreamble_ok (fuel : Nat) :
    ∀ data order flags dims name idx,
      matrixPreamble fuel data order = .ok (flags, dims, name, idx) →
      idx % 8 = 0 := by
  intro data order flags dims name idx h
  match fuel with
  | 0 => simp [matrixPreamble] at h
  | f + 1 =>
    rw [matrixPreamble] at h
    split at h
    · exact Except.noConfusion h
    · split at h
      · exact Except.noConfusion h
      · split at h
        · exact Except.noConfusion h
        · split at h
          · exact Except.noConfusion h
          · split at h
            · exact Except.noConfusion h
            · split at h
              · exact Except.noConfusion h
              · split at h
                · exact Except.noConfusion h
                · split at h
                  · exact Except.noConfusion h
                  · split at h
                    · exact Except.noConfusion h
                    · split at h
                      · exact Except.noConfusion h
                      · simp only [Except.ok.injEq, Prod.mk.injEq] at h
                        obtain ⟨-, -, -, rfl⟩ := h
                        exact checkIndex_mod _

/-- Master inversion lemma for a successful extractMatrix run: the returned
index is 8-byte aligned; a cell-class result consumed the whole buffer; a
struct-class result pairs every field name with exactly one value. -/
theorem extractMatrix_ok_props (fuel : Nat) :
    ∀ data order m i, extractMatrix fuel data order = .ok (m, i) →
      i % 8 = 0 ∧ (m.Class = 1 → data.length ≤ i) ∧
      (m.Class = 2 → ∃ ns vs, m.Content = .structPrt ns vs ∧
        vs.length = ns.length) := by
  intro data order m i h
  match fuel with
  | 0 => simp [extractMatrix] at h
  | f + 1 =>
    rw [extractMatrix] at h
    split at h
    · exact Except.noConfusion h
    · rename_i flags dims arrayName index3 hpre
      have hidx3 : index3 % 8 = 0 := matrixPreamble_ok f _ _ _ _ _ _ hpre
      split at h
      · -- cell class (flags % 16 = 1)
        rename_i hcls
        split at h
        · exact Except.noConfusion h
        · rename_i cells idxF hcell
          simp only [Except.ok.injEq, Prod.mk.injEq] at h
          obtain ⟨rfl, rfl⟩ := h.symm
          have hc := cellLoop_ok f _ _ _ _ _ _ _ hcell
          refine ⟨hc.2 hidx3, fun _ => hc.1, fun h2 => ?_⟩
          simp only [MatMatrix.Class] at h2
          omega
      · -- struct class (flags % 16 = 2)
        rename_i hcls
        split at h
        · exact Except.noConfusion h
        · rename_i fieldNames nof index5 hsp
          split at h
          · exact Except.noConfusion h
          · rename_i elements idxF hsv
            simp only [Except.ok.injEq, Prod.mk.injEq] at h
            obtain ⟨rfl, rfl⟩ := h.symm
            have hp := structPrelude_ok _ _ _ _ _ _ hsp
            have hv := structValuesLoop_ok f _ _ _ _ _ _ _ hsv
            refine ⟨hv.2 hp.2, fun h1 => ?_, fun _ => ?_⟩
            · simp only [MatMatrix.Class] at h1
              omega
            · refine ⟨fieldNames, elements, rfl, ?_⟩
              have := hv.1
              simp only [List.length_nil] at this
              omega
      · -- char class (flags % 16 = 4)
        rename_i hcls
        split at h
        · exact Except.noConfusion h
        · rename_i cname index6 hcp
          split at h
          · exact Except.noConfusion h
          · rename_i cvals idxF hcl
            simp only [Except.ok.injEq, Prod.mk.injEq] at h
            obtain ⟨rfl, rfl⟩ := h.symm
            refine ⟨charLoop_ok f _ _ _ _ _ _ _ _ hcl
              (charPrelude_ok _ _ _ _ _ hcp), fun h1 => ?_, fun h2 => ?_⟩
            · simp only [MatMatrix.Class] at h1
              omega
            · simp only [MatMatrix.Class] at h2
              omega
      · -- numeric class 6
        rename_i hcls
        split at h
        · exact Except.noConfusion h
        · rename_i content idxF hnb
          simp only [Except.ok.injEq, Prod.mk.injEq] at h
          obtain ⟨rfl, rfl⟩ := h.symm
          refine ⟨numericBody_ok f _ _ _ _ _ _ hnb, fun h1 => ?_,
            fun h2 => ?_⟩
          · simp only [MatMatrix.Class] at h1
            omega
          · simp only [MatMatrix.Class] at h2
            omega
      · -- numeric class 7
        rename_i hcls
        split at h
        · exact Except.noConfusion h
        · rename_i content idxF hnb
          simp only [Except.ok.injEq, Prod.mk.injEq] at h
          obtain ⟨rfl, rfl⟩ := h.symm
          refine ⟨numericBody_ok f _ _ _ _ _ _ hnb, fun h1 => ?_,
            fun h2 => ?_⟩
          · simp only [MatMatrix.Class] at h1
            omega
          · simp only [MatMatrix.Class] at h2
            omega
      · -- numeric class 8
        rename_i hcls
        split at h
        · exact Except.noConfusion h
        · rename_i content idxF hnb
          simp only [Except.ok.injEq, Prod.mk.injEq] at h
          obtain ⟨rfl, rfl⟩ := h.symm
          refine ⟨numericBody_ok f _ _ _ _ _ _ hnb, fun h1 => ?_,
            fun h2 => ?_⟩
          · simp only [MatMatrix.Class] at h1
            omega
          · simp only [MatMatrix.Class] at h2
            omega
      · -- numeric class 9
        rename_i hcls
        split at h
        · exact Except.noConfusion h
        · rename_i content idxF hnb
          simp only [Except.ok.injEq, Prod.mk.injEq] at h
          obtain ⟨rfl, rfl⟩ := h.symm
          refine ⟨numericBody_ok f _ _ _ _ _ _ hnb, fun h1 => ?_,
            fun h2 => ?_⟩
          · simp only [MatMatrix.Class] at h1
            omega
          · simp only [MatMatrix.Class] at h2
            omega
      · -- numeric class 10
        rename_i hcls
        split at h
        · exact Except.noConfusion h
        · rename_i content idxF hnb
          simp only [Except.ok.injEq, Prod.mk.injEq] at h
          obtain ⟨rfl, rfl⟩ := h.symm
          refine ⟨numericBody_ok f _ _ _ _ _ _ hnb, fun h1 => ?_,
            fun h2 => ?_⟩
          · simp only [MatMatrix.Class] at h1
            omega
          · simp only [MatMatrix.Class] at h2
            omega
      · -- numeric class 11
        rename_i hcls
        split at h
        · exact Except.noConfusion h
        · rename_i content idxF hnb
          simp only [Except.ok.injEq, Prod.mk.injEq] at h
          obtain ⟨rfl, rfl⟩ := h.symm
          refine ⟨numericBody_ok f _ _ _ _ _ _ hnb, fun h1 => ?_,
            fun h2 => ?_⟩
          · simp only [MatMatrix.Class] at h1
            omega
          · simp only [MatMatrix.Class] at h2
            omega
      · -- numeric class 12
        rename_i hcls
        split at h
        · exact Except.noConfusion h
        · rename_i content idxF hnb
          simp only [Except.ok.injEq, Prod.mk.injEq] at h
          obtain ⟨rfl, rfl⟩ := h.symm
          refine ⟨numericBody_ok f _ _ _ _ _ _ hnb, fun h1 => ?_,
            fun h2 => ?_⟩
          · simp only [MatMatrix.Class] at h1
            omega
          · simp only [MatMatrix.Class] at h2
            omega
      · -- numeric class 13
        rename_i hcls
        split at h
        · exact Except.noConfusion h
        · rename_i content idxF hnb
          simp only [Except.ok.injEq, Prod.mk.injEq] at h
          obtain ⟨rfl, rfl⟩ := h.symm
          refine ⟨numericBody_ok f _ _ _ _ _ _ hnb, fun h1 => ?_,
            fun h2 => ?_⟩
          · simp only [MatMatrix.Class] at h1
            omega
          · simp only [MatMatrix.Class] at h2
            omega
      · -- unsupported class
        exact Except.noConfusion h

theorem extractTag_standard (order : ByteOrder) (dt bc : Nat)
    (h1 : 1 ≤ dt) (h13 : dt ≤ 13) (hbc : bc < 4294967296) :
    extractTag (u32Bytes order dt ++ u32Bytes order bc) order =
      .ok (dt, bc, 8) := by
  cases order with
  | le =>
    simp only [u32Bytes, List.cons_append, List.nil_append, extractTag,
      isSmallDataElementFormat, byteD, List.getD_cons_succ,
      List.getD_cons_zero, List.length_cons, List.length_nil, goUint32,
      goUint16]
    have e2 : dt / 65536 % 256 % 256 = 0 := by omega
    have e3 : dt / 16777216 % 256 % 256 = 0 := by omega
    norm_num [e2, e3]
    omega
  | be =>
    simp only [u32Bytes, List.cons_append, List.nil_append, extractTag,
      isSmallDataElementFormat, byteD, List.getD_cons_succ,
      List.getD_cons_zero, List.length_cons, List.length_nil, goUint32,
      goUint16]
    have e2 : dt / 16777216 % 256 % 256 = 0 := by omega
    have e3 : dt / 65536 % 256 % 256 = 0 := by omega
    norm_num [e2, e3]
    omega

theorem extractTag_small_le (dt bc : Nat) (hdt : dt < 65536)
    (hbc : bc < 65536) (hb : bc % 256 ≠ bc / 256) :
    extractTag (u16leBytes dt ++ u16leBytes bc) .le = .ok (dt, bc, 4) := by
  simp only [u16leBytes, List.cons_append, List.nil_append, extractTag,
    isSmallDataElementFormat, byteD, List.getD_cons_succ, List.getD_cons_zero,
    List.length_cons, List.length_nil, goUint16]
  have e1 : bc % 256 % 256 = bc % 256 := by omega
  have e2 : bc / 256 % 256 % 256 = bc / 256 := by omega
  norm_num [e1, e2]
  rw [decide_eq_false hb]
  simp only [Bool.not_false, Except.ok.injEq, Prod.mk.injEq]
  exact ⟨by omega, by omega, trivial⟩

theorem extractTag_small_be (b0 b1 b2 b3 : Nat) (h0 : b0 < 256)
    (h1 : b1 < 256) (h2 : b2 < 256) (h3 : b3 < 256) (hne : b0 ≠ b1) :
    extractTag [b0, b1, b2, b3] .be =
      .ok (256 * b0 + b1, 256 * b2 + b3, 4) := by
  simp only [extractTag, isSmallDataElementFormat, byteD, List.getD_cons_succ,
    List.getD_cons_zero, List.length_cons, List.length_nil, goUint16]
  have e0 : b0 % 256 = b0 := by omega
  have e1 : b1 % 256 = b1 := by omega
  norm_num [e0, e1]
  rw [decide_eq_false hne]
  simp only [Bool.not_false, Except.ok.injEq, Prod.mk.injEq]
  exact ⟨trivial, by omega, trivial⟩

/-- A dimensions payload of more than three decoded axes always makes
readDimensions fail (either with the "More dimensions" error at the fourth
axis or with a reflect panic on a non-integer element). -/
theorem readDimensions_overlong (vs : List GoValue) (hlen : 3 < vs.length) :
    ∃ e, readDimensions (.vList vs) = .error e := by
  match vs, hlen with
  | a :: b :: c :: d :: rest, _ =>
    rcases hva : valueToInt a with e | va
    · exact ⟨e, by simp [readDimensions, readDimensionsAux, hva]⟩
    · rcases hvb : valueToInt b with e | vb
      · exact ⟨e, by simp [readDimensions, readDimensionsAux, hva, hvb]⟩
      · rcases hvc : valueToInt c with e | vc
        · exact ⟨e, by simp [readDimensions, readDimensionsAux, hva, hvb, hvc]⟩
        · rcases hvd : valueToInt d with e | vd
          · exact ⟨e, by
              simp [readDimensions, readDimensionsAux, hva, hvb, hvc, hvd]⟩
          · exact ⟨.tooManyDims, by
              simp [readDimensions, readDimensionsAux, hva, hvb, hvc, hvd]⟩

/-
Claims.
-/

set_option maxRecDepth 40000 in
/-- C1: On the 128-byte little-endian matrix body of the test fixture,
extractMatrix returns a matrix named "MaTrIx" (bytes 77,97,84,114,73,120),
flags word 0x6, class 6 (double), dimensions (3,3,0), numeric content whose
real part is the nine doubles [1,0,1,0,1,0,1,0,1] (1.0 = bit pattern
`oneBits`) in on-wire order with no imaginary part, and 128 bytes
consumed. -/
theorem C1_fixture_decodes :
    extractMatrix 32 verySimpleMatrix .le =
      .ok (verySimpleMatrixValue, 128) := by
  rfl

/-- C2 counterexample: the little-endian small tag with dataType 6 and
byteCount 257 (bytes 06 00 01 01, non-zero byteCount in the high half) is
not decoded as (6, 257, 4): the detection probe compares the two equal
byteCount bytes, falls into the standard branch and returns
(0x01010006, 0, 8). -/
theorem C2_counterexample :
    extractTag smallTag257 .le = .ok (16842758, 0, 8) ∧
    extractTag smallTag257 .le ≠ .ok (6, 257, 4) := by
  refine ⟨rfl, ?_⟩
  intro hcontra
  rw [show extractTag smallTag257 .le = .ok (16842758, 0, 8) from rfl]
    at hcontra
  simp at hcontra

/-- C2 amended: (a) every standard 8-byte tag with dataType in 1..13
decodes to (dataType, byteCount, 8) in both byte orders; (b) a 4-byte
little-endian small tag decodes to (dataType, byteCount, 4) when the two
encoded bytes of its byteCount halfword differ; (c) in big-endian order a
4-byte tag whose first two bytes differ is taken as small and decoded
positionally: bytes 0..1 as the dataType, bytes 2..3 as the byteCount. -/
theorem C2_tag_decoder :
    (∀ order dt bc, 1 ≤ dt → dt ≤ 13 → bc < 4294967296 →
      extractTag (u32Bytes order dt ++ u32Bytes order bc) order =
        .ok (dt, bc, 8)) ∧
    (∀ dt bc, dt < 65536 → bc < 65536 → bc % 256 ≠ bc / 256 →
      extractTag (u16leBytes dt ++ u16leBytes bc) .le = .ok (dt, bc, 4)) ∧
    (∀ b0 b1 b2 b3, b0 < 256 → b1 < 256 → b2 < 256 → b3 < 256 → b0 ≠ b1 →
      extractTag [b0, b1, b2, b3] .be =
        .ok (256 * b0 + b1, 256 * b2 + b3, 4)) :=
  ⟨extractTag_standard, extractTag_small_le, extractTag_small_be⟩

/-- C2 witness: the amended tag-decoder statement at concrete inputs
(standard tag (6,4) in both orders; small LE tag (6,4); small BE tag with
bytes 00 04 00 06). -/
theorem C2_tag_decoder_witness :
    extractTag (u32Bytes .le 6 ++ u32Bytes .le 4) .le = .ok (6, 4, 8) ∧
    extractTag (u32Bytes .be 6 ++ u32Bytes .be 4) .be = .ok (6, 4, 8) ∧
    extractTag (u16leBytes 6 ++ u16leBytes 4) .le = .ok (6, 4, 4) ∧
    extractTag [0, 4, 0, 6] .be = .ok (4, 6, 4) :=
  ⟨C2_tag_decoder.1 .le 6 4 (by decide) (by decide) (by decide),
   C2_tag_decoder.1 .be 6 4 (by decide) (by decide) (by decide),
   C2_tag_decoder.2.1 6 4 (by decide) (by decide) (by decide),
   by
     have h := C2_tag_decoder.2.2 0 4 0 6 (by decide) (by decide) (by decide)
       (by decide) (by decide)
     simpa using h⟩

set_option maxRecDepth 40000 in
/-- C3 counterexample: a cell-class matrix whose encoded dims.y is 5 but
whose 104-byte buffer holds a single child decodes successfully with one
cell, not five: the loop count is the buffer length, not dims.y. -/
theorem C3_counterexample :
    extractMatrix 32 cellShortBody .le = .ok (cellShortMatrix, 104) ∧
    cellShortMatrix.Dims.Y = 5 ∧
    cellCount cellShortMatrix.Content = 1 := by
  exact ⟨rfl, rfl, rfl⟩

/-- C3 amended: the cell-class body decoder repeatedly skips an outer
8-byte filler and recurses into extractMatrix, appending the children in
document order, until the running index reaches the end of the buffer; the
number of children is dictated by the buffer length, not by dims.y.  Formal
part: every successful cell-class decode consumes the whole buffer. -/
theorem C3_cell_walks_to_end :
    ∀ fuel data order m i, extractMatrix fuel data order = .ok (m, i) →
      m.Class = 1 → data.length ≤ i :=
  fun fuel data order m i h hc =>
    (extractMatrix_ok_props fuel data order m i h).2.1 hc

set_option maxRecDepth 40000 in
/-- C3 witness: the amended statement at the concrete cell body. -/
theorem C3_cell_walks_to_end_witness : cellShortBody.length ≤ 104 :=
  C3_cell_walks_to_end 32 cellShortBody .le cellShortMatrix 104
    (by rfl) (by rfl)

set_option maxRecDepth 40000 in
/-- C4 counterexample: a struct-class matrix with dims.y = 2 and one field
name decodes with a single field value, not dims.y * fieldCount = 2: the
value loop runs exactly fieldCount times, ignoring dims.y, and stores a
flat value list parallel to the name list. -/
theorem C4_counterexample :
    extractMatrix 32 structOneField .le = .ok (structOneFieldMatrix, 80) ∧
    structOneFieldMatrix.Dims.Y = 2 ∧
    structValueCount structOneFieldMatrix.Content = 1 := by
  exact ⟨rfl, rfl, rfl⟩

/-- C4 amended: the struct-class body decoder reads exactly fieldCount
tagged sub-elements after the field-name block (independent of dims.y) and
stores the i-th extracted value at position i of a flat value list parallel
to the field names, preserving their external order.  Formal part: every
successful struct-class decode yields exactly one value per field name. -/
theorem C4_struct_value_count :
    ∀ fuel data order m i, extractMatrix fuel data order = .ok (m, i) →
      m.Class = 2 → ∃ ns vs, m.Content = .structPrt ns vs ∧
        vs.length = ns.length :=
  fun fuel data order m i h hc =>
    (extractMatrix_ok_props fuel data order m i h).2.2 hc

set_option maxRecDepth 40000 in
/-- C4 witness: the amended statement at the concrete struct body. -/
theorem C4_struct_value_count_witness :
    ∃ ns vs, structOneFieldMatrix.Content = .structPrt ns vs ∧
      vs.length = ns.length :=
  C4_struct_value_count 32 structOneField .le structOneFieldMatrix 80
    (by rfl) (by rfl)

set_option maxRecDepth 40000 in
/-- C5 counterexample: a matrix whose Dimensions Array payload encodes four
signed 32-bit axes decodes successfully (readDimensions' error is discarded
at matf.go line 189 and the zero triple is used), instead of failing. -/
theorem C5_counterexample :
    extractMatrix 32 fourAxesBody .le = .ok (fourAxesMatrix, 64) ∧
    fourAxesMatrix.Dims = ⟨0, 0, 0⟩ := by
  exact ⟨rfl, rfl⟩

set_option maxRecDepth 40000 in
/-- C5 amended: readDimensions reports an error for every payload of more
than three axes, but extractMatrix discards that error (line 189) and
proceeds with the zero dimension triple, so decoding does not fail. -/
theorem C5_dims_error_discarded :
    (∀ vs : List GoValue, 3 < vs.length →
      ∃ e, readDimensions (.vList vs) = .error e) ∧
    extractMatrix 32 fourAxesBody .le = .ok (fourAxesMatrix, 64) :=
  ⟨fun vs h => readDimensions_overlong vs h, by rfl⟩

/-- C5 witness: the amended statement at a concrete four-axis payload. -/
theorem C5_dims_error_discarded_witness :
    ∃ e, readDimensions (.vList [.vInt32 1, .vInt32 1, .vInt32 1,
      .vInt32 1]) = .error e :=
  C5_dims_error_discarded.1 [.vInt32 1, .vInt32 1, .vInt32 1, .vInt32 1]
    (by simp)

/-- C6 counterexample: a data element tagged miUtf8 (16) with a one-byte
payload is rejected with "Data Type 16 is not supported" instead of being
decoded as 1-byte scalars. -/
theorem C6_counterexample :
    extractDataElement 10 [65] .le 16 1 = .error (.unsupportedType 16) := by
  rfl

/-- C6 amended: data elements tagged utf8/utf16/utf32 (codes 16/17/18) are
not decoded; for every non-empty payload the scalar decoder fails with the
unsupported-type error (the switch in extractDataElement has no case for
them). -/
theorem C6_utf_unsupported :
    ∀ fuel data order dt nb, 0 < fuel → 0 < nb →
      (dt = 16 ∨ dt = 17 ∨ dt = 18) →
      extractDataElement fuel data order dt nb =
        .error (.unsupportedType dt) := by
  intro fuel data order dt nb hf hnb hdt
  obtain ⟨f, rfl⟩ : ∃ f, fuel = f + 1 := ⟨fuel - 1, by omega⟩
  obtain ⟨k, rfl⟩ : ∃ k, nb = k + 1 := ⟨nb - 1, by omega⟩
  rcases hdt with rfl | rfl | rfl <;>
    simp [extractDataElement, scalarLoop, scalarWidth]

/-- C6 witness: the amended statement at a concrete utf16 element. -/
theorem C6_utf_unsupported_witness :
    extractDataElement 1 [65, 0] .be 17 2 = .error (.unsupportedType 17) :=
  C6_utf_unsupported 1 [65, 0] .be 17 2 (by decide) (by decide)
    (by simp)

/-- C7: readHeader succeeds on any buffer of at least 128 bytes, and
ReadDataElement then decodes little-endian (byte swapping set) iff header
bytes 126..127 are 0x49 0x4D ("IM"); otherwise it decodes big-endian. -/
theorem C7_endian_detection (data : List Nat) (hlen : 128 ≤ data.length)
    (hb : ∀ b ∈ data, b < 256) :
    ∃ hdr bsw, readHeader data = .ok (hdr, bsw) ∧
      (readOrder bsw = .le ↔
        (data.getD 126 0 = 73 ∧ data.getD 127 0 = 77)) ∧
      (¬(data.getD 126 0 = 73 ∧ data.getD 127 0 = 77) →
        readOrder bsw = .be) := by
  have h126 : data.getD 126 0 < 256 := by
    rw [List.getD_eq_getElem _ _ (by omega)]
    exact hb _ (List.getElem_mem _)
  have h127 : data.getD 127 0 < 256 := by
    rw [List.getD_eq_getElem _ _ (by omega)]
    exact hb _ (List.getElem_mem _)
  rw [readHeader, if_neg (by omega)]
  refine ⟨_, _, rfl, ?_⟩
  have hPQ : (256 * byteD data 126 + byteD data 127 = 18765) ↔
      (data.getD 126 0 = 73 ∧ data.getD 127 0 = 77) := by
    simp only [byteD]
    omega
  by_cases hQ : data.getD 126 0 = 73 ∧ data.getD 127 0 = 77
  · rw [decide_eq_true (hPQ.mpr hQ)]
    exact ⟨⟨fun _ => hQ, fun _ => rfl⟩, fun hn => absurd hQ hn⟩
  · rw [decide_eq_false (fun hp => hQ (hPQ.mp hp))]
    exact ⟨⟨fun h => absurd h (fun hh => ByteOrder.noConfusion hh),
      fun hq => absurd hq hQ⟩, fun _ => rfl⟩

set_option maxRecDepth 40000 in
/-- C7 witness: the endianness statement at a concrete 128-byte header
ending in "IM". -/
theorem C7_endian_detection_witness :
    ∃ hdr bsw, readHeader leHeaderBytes = .ok (hdr, bsw) ∧
      (readOrder bsw = .le ↔
        (leHeaderBytes.getD 126 0 = 73 ∧ leHeaderBytes.getD 127 0 = 77)) ∧
      (¬(leHeaderBytes.getD 126 0 = 73 ∧ leHeaderBytes.getD 127 0 = 77) →
        readOrder bsw = .be) :=
  C7_endian_detection leHeaderBytes (by decide) (by decide)

/-- C8: every index value the matrix decoder hands back from a successful
decode is 8-byte aligned — each sub-element advance passes through
checkIndex, so the cursor carried forward and finally returned satisfies
index mod 8 = 0. -/
theorem C8_alignment :
    ∀ fuel data order m i, extractMatrix fuel data order = .ok (m, i) →
      i % 8 = 0 :=
  fun fuel data order m i h =>
    (extractMatrix_ok_props fuel data order m i h).1

set_option maxRecDepth 40000 in
/-- C8 witness: the alignment statement at the test fixture. -/
theorem C8_alignment_witness : (128 : Nat) % 8 = 0 :=
  C8_alignment 32 verySimpleMatrix .le verySimpleMatrixValue 128 (by rfl)

/-- C9: in the struct branch, the field count is the 32-bit word at
preamble bytes 12..15 divided by the fieldNameLength word at bytes 4..7
with no zero guard: whenever the fieldNameLength word is 0 the division
panics (divide by zero), and otherwise the count used is exactly
w12 / fieldNameLength. -/
theorem C9_struct_division (data : List Nat) (order : ByteOrder)
    (index w12 : Nat) (h12 : goUint32 order data (index + 12) = .ok w12) :
    (goUint32 order data (index + 4) = .ok 0 →
      structPrelude data order index = .error .divZero) ∧
    (∀ fnl names nof idx5, goUint32 order data (index + 4) = .ok fnl →
      structPrelude data order index = .ok (names, nof, idx5) →
      nof = w12 / fnl) := by
  constructor
  · intro h4
    simp [structPrelude, h4, h12]
  · intro fnl names nof idx5 h4 hsp
    simp only [structPrelude, h4, h12] at hsp
    split at hsp
    · exact Except.noConfusion hsp
    · split at hsp
      · exact Except.noConfusion hsp
      · split at hsp
        · exact Except.noConfusion hsp
        · simp only [Except.ok.injEq, Prod.mk.injEq] at hsp
          obtain ⟨-, h2, -⟩ := hsp
          exact h2.symm

/-- C9 witness: a sixteen-zero-byte preamble has fieldNameLength 0 and the
struct prelude fails with the divide-by-zero panic. -/
theorem C9_struct_division_witness :
    structPrelude (List.replicate 16 0) .le 0 = .error .divZero :=
  (C9_struct_division (List.replicate 16 0) .le 0 0 (by rfl)).1
    (by rfl)

/-- C10: for every non-negative index, the checkIndex loop terminates (it
is a total function here) and returns the least multiple of 8 that is
greater than or equal to index; in particular the result is below
index + 8 and divisible by 8. -/
theorem C10_checkIndex_least :
    ∀ index : Nat, checkIndex index % 8 = 0 ∧ index ≤ checkIndex index ∧
      checkIndex index < index + 8 ∧
      (∀ m, index ≤ m → m % 8 = 0 → checkIndex index ≤ m) := by
  intro index
  rw [checkIndex_spec]
  exact ⟨by omega, by omega, by omega, fun m h1 h2 => by omega⟩

/-- C10 witness: the checkIndex properties at index 5 (with 8 as the
competing multiple of 8). -/
theorem C10_checkIndex_least_witness :
    checkIndex 5 % 8 = 0 ∧ 5 ≤ checkIndex 5 ∧ checkIndex 5 < 13 ∧
      checkIndex 5 ≤ 8 :=
  ⟨(C10_checkIndex_least 5).1, (C10_checkIndex_least 5).2.1,
   (C10_checkIndex_least 5).2.2.1,
   (C10_checkIndex_least 5).2.2.2 8 (by decide) (by decide)⟩

end matf
